import Mathlib

/-!
Verification development for the `hwinfo.py` waybar status probe.

The Python source is shallowly embedded: every acquisition function becomes a
Lean function over an explicit environment describing what the external
collaborators (the psutil library, the thermal sysfs tree, the meminfo file,
the clock) would return.  Numeric values manipulated by the program are
modelled as rationals; Python `round(x, n)` is modelled as exact
round-half-even on rationals, and the decimal renderings produced by Python
f-strings for one-decimal floats, for `:.2f` format specs and for ints are
modelled by explicit decimal printers.  Strings are Lean strings (sequences
of unicode scalar values).
-/

attribute [local semireducible] Rat.add Rat.sub Rat.mul Rat.inv

/-- Round-half-even on rationals: the model of Python `round(x)`, which uses
banker's rounding. -/
def roundHalfEven (q : ℚ) : ℤ :=
  let f := q.floor
  let r := q - (f : ℚ)
  if r < 1 / 2 then f
  else if 1 / 2 < r then f + 1
  else if f % 2 = 0 then f else f + 1

/-- Model of Python `round(x, 1)`: round-half-even at one decimal place. -/
def round1 (q : ℚ) : ℚ :=
  (roundHalfEven (q * 10) : ℚ) / 10

/-- Decimal rendering of an integer, the model of Python `str` on an `int`. -/
def intRepr (z : ℤ) : String :=
  (if z < 0 then "-" else "") ++ Nat.repr z.natAbs

/-- Rendering of a float carrying one decimal digit (every float formatted by
the program is the result of `round(x, 1)`): the model of the Python f-string
rendering such as `45.0` or `12.3`. -/
def fmtTenths (q : ℚ) : String :=
  let z := (q * 10).floor
  (if z < 0 then "-" else "") ++ Nat.repr (z.natAbs / 10) ++ "." ++ Nat.repr (z.natAbs % 10)

/-- Model of the Python format spec `:.2f`: fixed two decimal places with
round-half-even. -/
def fmt2f (q : ℚ) : String :=
  let z := roundHalfEven (q * 100)
  let n := z.natAbs
  (if z < 0 then "-" else "") ++ Nat.repr (n / 100) ++ "." ++
    (if n % 100 < 10 then "0" else "") ++ Nat.repr (n % 100)

/-- Does the list of characters start with the given needle. -/
def listPrefixEq : List Char → List Char → Bool
  | [], _ => true
  | _ :: _, [] => false
  | a :: as, b :: bs => a = b && listPrefixEq as bs

/-- Does the needle occur as a contiguous run inside the haystack; the model
of the Python substring test `needle in hay`. -/
def listOccurs (needle : List Char) : List Char → Bool
  | [] => listPrefixEq needle []
  | c :: t => listPrefixEq needle (c :: t) || listOccurs needle t

/-- Python substring containment `needle in hay` on strings. -/
def strContains (hay needle : String) : Bool :=
  listOccurs needle.data hay.data

/-- Model of Python `str.strip()`: drop whitespace from both ends. -/
def trimChars (cs : List Char) : List Char :=
  (((cs.dropWhile Char.isWhitespace).reverse).dropWhile Char.isWhitespace).reverse

/-- Strip a string, the model of Python `str.strip()`. -/
def pyStrip (s : String) : String :=
  String.mk (trimChars s.data)

/-- Model of Python `str.lower()` (the strings fed to it by the program are
sensor-driver names, which are ASCII). -/
def pyLower (s : String) : String :=
  String.mk (s.data.map Char.toLower)

/-- Model of Python `str.split(sep)` with a one-character separator: split at
every occurrence, keeping empty pieces. -/
def splitOnChar (sep : Char) (cs : List Char) : List (List Char) :=
  cs.foldr
    (fun c acc =>
      match acc with
      | [] => if c = sep then [[], []] else [[c]]
      | piece :: rest => if c = sep then [] :: piece :: rest else (c :: piece) :: rest)
    [[]]

/-- Model of Python `str.split()` with no argument: split on whitespace runs,
discarding empty tokens. -/
def splitWsChars (cs : List Char) : List (List Char) :=
  (cs.splitOnP Char.isWhitespace).filter (fun t => t ≠ [])

/-- Model of Python `int(s)` on a run of decimal digits possibly separated by
single underscores (the grammar accepted for a base-10 literal body). -/
def pyDigits (cs : List Char) : Option Nat :=
  if cs = [] then none
  else if cs.head? = some '_' ∨ cs.getLast? = some '_' then none
  else if (cs.zip cs.tail).any (fun p => p.1 = '_' ∧ p.2 = '_') then none
  else if cs.all (fun c => c.isDigit || c = '_') then
    some (cs.foldl (fun acc c => if c = '_' then acc else acc * 10 + (c.toNat - 48)) 0)
  else none

/-- Model of Python `int(s)` for a decimal string: optional surrounding
whitespace, optional sign, digit run; `none` models a raised `ValueError`. -/
def pyInt (s : String) : Option Int :=
  match trimChars s.data with
  | '+' :: rest => (pyDigits rest).map Int.ofNat
  | '-' :: rest => (pyDigits rest).map (fun n => -(n : ℤ))
  | cs => (pyDigits cs).map Int.ofNat

/-- A Python value that is either a number or the string sentinel: the shape
of the temperature result and of each memory-record field. -/
inductive PyVal where
  | num (q : ℚ)
  | str (s : String)
deriving DecidableEq

/-- Is this value a Python number, the model of `isinstance(x, (int, float))`. -/
def PyVal.isNum : PyVal → Bool
  | .num _ => true
  | .str _ => false

/-- Rendering of a `PyVal` inside an f-string. -/
def pyValRender : PyVal → String
  | .num q => fmtTenths q
  | .str s => s

/-- The memory record returned by `get_memory_usage`. -/
structure MemInfo where
  used_gb : PyVal
  total_gb : PyVal
  percent : PyVal
deriving DecidableEq

/-- The all-sentinel memory record. -/
def memNA : MemInfo :=
  ⟨PyVal.str "N/A", PyVal.str "N/A", PyVal.str "N/A"⟩

/-- The load record returned by `get_cpu_load`. -/
structure CpuLoad where
  overall : Option ℚ
  per_core : List ℚ
deriving DecidableEq

/-- What `psutil.sensors_temperatures()` yields: the library may be absent
(`ImportError`), raise, or return an insertion-ordered mapping from sensor
group name to the `current` fields of its entries (`none` models an entry
whose `current` is `None`). -/
inductive PsutilTemps where
  | absent
  | errs
  | ok (temps : List (String × List (Option ℚ)))
deriving DecidableEq

/-- One thermal-zone directory: reading its `type` and `temp` files either
raises (`err`, any `IOError`) or yields the two raw file contents. -/
inductive ZoneRead where
  | err
  | ok (typeRaw : String) (tempRaw : String)
deriving DecidableEq

/-- What `psutil.virtual_memory()` yields: absent library, a raise, or the
`used`/`total` byte counts with the `percent` figure. -/
inductive PsutilMem where
  | absent
  | errs
  | ok (used total : ℤ) (percent : ℚ)

/-- What the two `psutil.cpu_percent` calls yield: absent library, a raise,
or the per-core percentage list together with the overall percentage. -/
inductive PsutilCpu where
  | absent
  | errs
  | ok (perCore : List ℚ) (overall : ℚ)

/-- The fixed priority list of sensor group names from `get_cpu_temperature`. -/
def cpu_keys : List String := ["coretemp", "k10temp", "x86_pkg_temp", "acpitz"]

/-- Dictionary lookup on the sensor-group mapping (`key in temps` and
`temps[key]`; psutil returns one entry per driver name). -/
def lookupDict (temps : List (String × List (Option ℚ))) (k : String) :
    Option (List (Option ℚ)) :=
  (temps.find? (fun p => p.1 = k)).map (fun p => p.2)

/-- The in-range readings of one sensor group: entries whose `current` is not
`None` and lies strictly between 0 and 150. -/
def validReadings (entries : List (Option ℚ)) : List ℚ :=
  entries.filterMap (fun e =>
    match e with
    | some v => if 0 < v ∧ v < 150 then some v else none
    | none => none)

/-- The body of both Strategy A loops: average the in-range readings of a
group and round to one decimal, or signal no data when none are in range. -/
def groupMean1 (entries : List (Option ℚ)) : Option ℚ :=
  let vs := validReadings entries
  if vs = [] then none
  else some (round1 (vs.sum / (vs.length : ℚ)))

/-- The priority loop of Strategy A: walk `cpu_keys` in order and return the
rounded mean of the first present group having an in-range reading. -/
def findPriority : List String → List (String × List (Option ℚ)) → Option ℚ
  | [], _ => none
  | k :: ks, temps =>
    match lookupDict temps k with
    | none => findPriority ks temps
    | some entries =>
      match groupMean1 entries with
      | some v => some v
      | none => findPriority ks temps

/-- The scan loop of Strategy A: walk all groups in mapping order and return
the rounded mean of the first group whose lowercased name contains `cpu` or
`core` and which has an in-range reading. -/
def findCpuName : List (String × List (Option ℚ)) → Option ℚ
  | [] => none
  | (name, entries) :: rest =>
    if strContains (pyLower name) "cpu" || strContains (pyLower name) "core" then
      match groupMean1 entries with
      | some v => some v
      | none => findCpuName rest
    else findCpuName rest

/-- Strategy A of `get_cpu_temperature`: `some v` when the psutil path
returns early with `v`, `none` when control falls through to Strategy B. -/
def strategyA : PsutilTemps → Option ℚ
  | .absent => none
  | .errs => none
  | .ok temps =>
    if temps = [] then none
    else
      match findPriority cpu_keys temps with
      | some v => some v
      | none => findCpuName temps

/-- One thermal zone's outcome: the lowercased stripped `type` string and the
Celsius value, or `none` when reading raised or the raw temperature did not
parse as an int. -/
def zoneReading (z : ZoneRead) : Option (String × ℚ) :=
  match z with
  | .err => none
  | .ok typeRaw tempRaw =>
    match pyInt tempRaw with
    | none => none
    | some milli => some (pyLower (pyStrip typeRaw), (milli : ℚ) / 1000)

/-- The zone loop of Strategy B: in iteration order, put each in-range zone
reading into the preferred bucket (type containing `coretemp`, `k10temp` or
`x86_pkg_temp`) or else into the fallback bucket (type containing `acpi`). -/
def bucketZones : List ZoneRead → List ℚ × List ℚ
  | [] => ([], [])
  | z :: zs =>
    let rest := bucketZones zs
    match zoneReading z with
    | none => rest
    | some (st, tc) =>
      if ¬(0 < tc ∧ tc < 150) then rest
      else if strContains st "coretemp" || strContains st "k10temp" ||
          strContains st "x86_pkg_temp" then (tc :: rest.1, rest.2)
      else if strContains st "acpi" then (rest.1, tc :: rest.2)
      else rest

/-- Strategy B of `get_cpu_temperature`: the thermal sysfs fallback.  The
environment is `none` when enumerating the zones itself raised, otherwise the
list of zone directories in glob order. -/
def strategyB (zones : Option (List ZoneRead)) : PyVal :=
  match zones with
  | none => PyVal.str "N/A"
  | some zs =>
    if zs = [] then PyVal.str "N/A"
    else
      let b := bucketZones zs
      let temps_to_use := if b.1 ≠ [] then b.1 else b.2
      if temps_to_use = [] then PyVal.str "N/A"
      else PyVal.num (round1 (temps_to_use.sum / (temps_to_use.length : ℚ)))

/-- The embedding of `get_cpu_temperature`: Strategy A's early return when it
fires, otherwise Strategy B.  The sentinel `N/A` is the `PyVal.str` case. -/
def get_cpu_temperature (pt : PsutilTemps) (zones : Option (List ZoneRead)) : PyVal :=
  match strategyA pt with
  | some v => PyVal.num v
  | none => strategyB zones

/-- The embedding of `get_cpu_load`. -/
def get_cpu_load : PsutilCpu → CpuLoad
  | .absent => ⟨none, []⟩
  | .errs => ⟨none, []⟩
  | .ok perCore overall => ⟨some (round1 overall), perCore.map round1⟩

/-- One line of the meminfo loop: `none` models an exception escaping the
loop (`IndexError` on a valueless line or `ValueError` from `int`), `some
none` a line without exactly one colon (skipped), `some (some kv)` a parsed
entry. -/
def parseMeminfoLine (line : String) : Option (Option (String × Int)) :=
  match splitOnChar ':' line.data with
  | [p0, p1] =>
    match splitWsChars (trimChars p1) with
    | [] => none
    | tok :: _ =>
      match pyInt (String.mk tok) with
      | none => none
      | some v => some (some (String.mk (trimChars p0), v))
  | _ => some none

/-- The meminfo parsing loop over the file's lines; `none` models an
exception reaching the enclosing handler. -/
def parseMeminfoLines : List String → Option (List (String × Int))
  | [] => some []
  | l :: ls =>
    match parseMeminfoLine l with
    | none => none
    | some none => parseMeminfoLines ls
    | some (some kv) => (parseMeminfoLines ls).map (fun t => kv :: t)

/-- Lookup in the built dict: later lines overwrite earlier ones, so the
last occurrence of a key wins. -/
def lookupLast (tbl : List (String × Int)) (k : String) : Option Int :=
  (tbl.reverse.find? (fun p => p.1 = k)).map (fun p => p.2)

/-- The embedding of `get_memory_usage`.  The psutil path converts bytes to
GB; the meminfo fallback needs `MemTotal` and `MemAvailable` in KiB.  A zero
`MemTotal` raises `ZeroDivisionError` in the percent computation, which the
enclosing handler turns into the all-sentinel record. -/
def get_memory_usage (pm : PsutilMem) (meminfoFile : Option (List String)) : MemInfo :=
  match pm with
  | .ok used total percent =>
    ⟨PyVal.num (round1 ((used : ℚ) / 1073741824)),
     PyVal.num (round1 ((total : ℚ) / 1073741824)),
     PyVal.num (round1 percent)⟩
  | _ =>
    match meminfoFile with
    | none => memNA
    | some lines =>
      match parseMeminfoLines lines with
      | none => memNA
      | some tbl =>
        match lookupLast tbl "MemTotal", lookupLast tbl "MemAvailable" with
        | some total_kb, some available_kb =>
          if total_kb = 0 then memNA
          else
            let used_kb := total_kb - available_kb
            ⟨PyVal.num (round1 ((used_kb : ℚ) / 1048576)),
             PyVal.num (round1 ((total_kb : ℚ) / 1048576)),
             PyVal.num (round1 ((used_kb : ℚ) / (total_kb : ℚ) * 100))⟩
        | _, _ => memNA

/-- The main-bar temperature segment of `format_waybar_output`. -/
def cpuTextOf (cpu_temp : PyVal) (load : CpuLoad) : String :=
  match cpu_temp with
  | .num t =>
    match load.overall with
    | some ov => fmtTenths t ++ "°C (" ++ fmtTenths ov ++ "%)"
    | none => fmtTenths t ++ "°C"
  | .str _ => "N/A"

/-- The main-bar memory segment of `format_waybar_output`: whole-number GB
figures when all three fields are numeric. -/
def memTextOf (mem : MemInfo) : String :=
  match mem.used_gb, mem.total_gb, mem.percent with
  | .num u, .num t, .num p =>
    intRepr (roundHalfEven u) ++ "GB/" ++ intRepr (roundHalfEven t) ++ "GB (" ++
      fmtTenths p ++ "%)"
  | _, _, _ => "N/A"

/-- The `text` field of the output record. -/
def textOf (cpu_temp : PyVal) (mem : MemInfo) (load : CpuLoad) : String :=
  "CPU: " ++ cpuTextOf cpu_temp load ++ " | MEM: " ++ memTextOf mem

/-- The per-core block of the tooltip. -/
def coreLines (pcs : List ℚ) : String :=
  String.join (pcs.enum.map (fun p =>
    "  Core " ++ Nat.repr p.1 ++ ": " ++ fmtTenths p.2 ++ "%\n"))

/-- The memory line of the tooltip.  The source checks only `used_gb` and
`total_gb` for numericness; `percent` is rendered as-is inside the line. -/
def memLineOf (mem : MemInfo) : String :=
  match mem.used_gb, mem.total_gb with
  | .num u, .num t =>
    "Memory: " ++ fmt2f (u * 1024) ++ "MB / " ++ fmt2f (t * 1024) ++ "MB (" ++
      pyValRender mem.percent ++ "%)\n"
  | _, _ => "Memory: N/A\n"

/-- The `tooltip` field of the output record; `ts` is what
`datetime.datetime.now().strftime` returned for the timestamp line. -/
def tooltipOf (ts : String) (cpu_temp : PyVal) (mem : MemInfo) (load : CpuLoad) : String :=
  "Hardware Info\n" ++ "CPU Temp: " ++ cpuTextOf cpu_temp load ++ "\n" ++
    (if load.per_core = [] then "" else "CPU Load:\n" ++ coreLines load.per_core) ++
    memLineOf mem ++ "Updated: " ++ ts

/-- The four fields of the output record, in the dict's insertion order. -/
def waybarFields (ts : String) (cpu_temp : PyVal) (mem : MemInfo) (load : CpuLoad) :
    List (String × String) :=
  [("text", textOf cpu_temp mem load), ("tooltip", tooltipOf ts cpu_temp mem load),
   ("class", "hwinfo"), ("alt", "hwinfo")]

/-- The four fields of the degraded record printed by `main`'s handler. -/
def errorRecord (e : String) : List (String × String) :=
  [("text", "CPU: N/A | MEM: N/A"), ("tooltip", "Error: " ++ e),
   ("class", "hwinfo-error"), ("alt", "hwinfo-error")]

/-- The opening brace character of a JSON object. -/
def lbrace : Char := Char.ofNat 123

/-- The closing brace character of a JSON object. -/
def rbrace : Char := Char.ofNat 125

/-- Lowercase hex digit, as used by Python's `\uXXXX` escapes. -/
def hexChar (n : Nat) : Char :=
  if n < 10 then Char.ofNat (48 + n) else Char.ofNat (87 + n)

/-- The four hex digits of a 16-bit code unit. -/
def hex4 (n : Nat) : List Char :=
  [hexChar (n / 4096 % 16), hexChar (n / 256 % 16), hexChar (n / 16 % 16), hexChar (n % 16)]

/-- A `\uXXXX` escape sequence. -/
def uEsc (n : Nat) : List Char :=
  '\\' :: 'u' :: hex4 n

/-- Model of Python `json.dumps` character escaping with the default
`ensure_ascii=True`: named escapes for the common controls, `\uXXXX` for the
other controls and all non-ASCII characters, surrogate pairs beyond the BMP. -/
def escapeChar (c : Char) : List Char :=
  if c = '"' then ['\\', '"']
  else if c = '\\' then ['\\', '\\']
  else if c = '\n' then ['\\', 'n']
  else if c = '\r' then ['\\', 'r']
  else if c = '\t' then ['\\', 't']
  else if c.toNat = 8 then ['\\', 'b']
  else if c.toNat = 12 then ['\\', 'f']
  else if c.toNat < 32 then uEsc c.toNat
  else if c.toNat < 127 then [c]
  else if c.toNat < 65536 then uEsc c.toNat
  else uEsc (55296 + (c.toNat - 65536) / 1024) ++ uEsc (56320 + (c.toNat - 65536) % 1024)

/-- Escape every character of a string body. -/
def escList : List Char → List Char
  | [] => []
  | c :: cs => escapeChar c ++ escList cs

/-- A JSON string literal as dumped by Python. -/
def dumpStr (s : String) : List Char :=
  '"' :: escList s.data ++ ['"']

/-- The members of a dumped object, joined with the default separators of
`json.dumps(obj, indent=None)`: a comma-space between members and a
colon-space inside each member. -/
def dumpsObjAux : List (String × String) → List Char
  | [] => []
  | [(k, v)] => dumpStr k ++ ':' :: ' ' :: dumpStr v
  | (k, v) :: rest => dumpStr k ++ ':' :: ' ' :: dumpStr v ++ ',' :: ' ' :: dumpsObjAux rest

/-- Model of `json.dumps` on a dict of strings, the only shape the program
serializes. -/
def dumpsObj (ms : List (String × String)) : String :=
  String.mk (lbrace :: dumpsObjAux ms ++ [rbrace])

/-- Model of `format_waybar_output`: the JSON string returned to `main`. -/
def format_waybar_output (ts : String) (cpu_temp : PyVal) (mem : MemInfo)
    (load : CpuLoad) : String :=
  dumpsObj (waybarFields ts cpu_temp mem load)

/-- The full environment of one invocation.  `unhandled` is `some e` when an
error with message `e` escapes the acquisition/formatting pipeline inside
`main`'s `try` (raised by an external collaborator), which the source answers
with the degraded record and exit code 1. -/
structure Env where
  pt : PsutilTemps
  zones : Option (List ZoneRead)
  pm : PsutilMem
  meminfo : Option (List String)
  pc : PsutilCpu
  timestamp : String
  unhandled : Option String

/-- The embedding of `main`: the single stdout line and the exit code. -/
def mainRun (env : Env) : String × Nat :=
  match env.unhandled with
  | some e => (dumpsObj (errorRecord e), 1)
  | none =>
    (format_waybar_output env.timestamp (get_cpu_temperature env.pt env.zones)
      (get_memory_usage env.pm env.meminfo) (get_cpu_load env.pc), 0)

/-- JSON values, as far as the program's output shapes need: strings and
objects. -/
inductive Json where
  | str (s : String)
  | obj (members : List (String × Json))

/-- Whitespace allowed between JSON tokens. -/
def isJsonWs (c : Char) : Bool :=
  c = ' ' || c = '\t' || c = '\n' || c = '\r'

/-- Skip inter-token whitespace. -/
def skipWs : List Char → List Char
  | [] => []
  | c :: cs => if isJsonWs c then skipWs cs else c :: cs

/-- The value of one hex digit. -/
def hexVal (c : Char) : Option Nat :=
  if '0' ≤ c ∧ c ≤ '9' then some (c.toNat - 48)
  else if 'a' ≤ c ∧ c ≤ 'f' then some (c.toNat - 87)
  else if 'A' ≤ c ∧ c ≤ 'F' then some (c.toNat - 55)
  else none

/-- Parse four hex digits into a 16-bit code unit. -/
def parseU4 : List Char → Option (Nat × List Char)
  | a :: b :: c :: d :: rest =>
    match hexVal a, hexVal b, hexVal c, hexVal d with
    | some x, some y, some z, some w => some (((x * 16 + y) * 16 + z) * 16 + w, rest)
    | _, _, _, _ => none
  | _ => none

/-- Decode a single-character escape. -/
def escDecode (c : Char) : Option Char :=
  if c = '"' then some '"'
  else if c = '\\' then some '\\'
  else if c = '/' then some '/'
  else if c = 'b' then some (Char.ofNat 8)
  else if c = 'f' then some (Char.ofNat 12)
  else if c = 'n' then some '\n'
  else if c = 'r' then some '\r'
  else if c = 't' then some '\t'
  else none

/-- Parse the body of a JSON string literal up to its closing quote,
decoding escapes, rejecting raw control characters and lone surrogates. -/
def parseStringBody : Nat → List Char → Option (List Char × List Char)
  | 0, _ => none
  | _ + 1, [] => none
  | fuel + 1, c :: rest =>
    if c = '"' then some ([], rest)
    else if c = '\\' then
      match rest with
      | [] => none
      | e :: rest2 =>
        if e = 'u' then
          match parseU4 rest2 with
          | none => none
          | some (n, rest3) =>
            if 55296 ≤ n ∧ n ≤ 56319 then
              match rest3 with
              | '\\' :: 'u' :: rest4 =>
                match parseU4 rest4 with
                | none => none
                | some (m, rest5) =>
                  if 56320 ≤ m ∧ m ≤ 57343 then
                    (parseStringBody fuel rest5).map (fun p =>
                      (Char.ofNat (65536 + (n - 55296) * 1024 + (m - 56320)) :: p.1, p.2))
                  else none
              | _ => none
            else if 56320 ≤ n ∧ n ≤ 57343 then none
            else
              (parseStringBody fuel rest3).map (fun p => (Char.ofNat n :: p.1, p.2))
        else
          match escDecode e with
          | none => none
          | some d => (parseStringBody fuel rest2).map (fun p => (d :: p.1, p.2))
    else if c.toNat < 32 then none
    else (parseStringBody fuel rest).map (fun p => (c :: p.1, p.2))

mutual

/-- Parse one JSON value (string or object). -/
def parseValue : Nat → List Char → Option (Json × List Char)
  | 0, _ => none
  | f + 1, input =>
    match skipWs input with
    | [] => none
    | c :: rest =>
      if c = '"' then
        match parseStringBody (rest.length + 1) rest with
        | some (cs, r) => some (Json.str (String.mk cs), r)
        | none => none
      else if c = lbrace then
        match skipWs rest with
        | [] => none
        | d :: rest2 =>
          if d = rbrace then some (Json.obj [], rest2)
          else
            match parseMembers f (d :: rest2) with
            | some (ms, r) => some (Json.obj ms, r)
            | none => none
      else none

/-- Parse the members of a JSON object after its opening brace. -/
def parseMembers : Nat → List Char → Option (List (String × Json) × List Char)
  | 0, _ => none
  | f + 1, input =>
    match skipWs input with
    | [] => none
    | c :: rest =>
      if c = '"' then
        match parseStringBody (rest.length + 1) rest with
        | none => none
        | some (k, rest2) =>
          match skipWs rest2 with
          | ':' :: rest3 =>
            match parseValue f rest3 with
            | none => none
            | some (v, rest4) =>
              match skipWs rest4 with
              | [] => none
              | d :: rest5 =>
                if d = ',' then
                  match parseMembers f rest5 with
                  | some (ms, r) => some ((String.mk k, v) :: ms, r)
                  | none => none
                else if d = rbrace then some ([(String.mk k, v)], rest5)
                else none
          | _ => none
      else none

end

/-- Parse a complete JSON document: one value and nothing but whitespace
after it. -/
def parseJsonTop (s : String) : Option Json :=
  match parseValue 10 s.data with
  | some (j, rest) => if skipWs rest = [] then some j else none
  | none => none

theorem data_append (a b : String) : (a ++ b).data = a.data ++ b.data := rfl

theorem data_mk (l : List Char) : (String.mk l).data = l := rfl

theorem mk_data (s : String) : String.mk s.data = s := rfl

theorem listPrefixEq_self_append : ∀ (n t : List Char), listPrefixEq n (n ++ t) = true
  | [], _ => rfl
  | c :: n, t => by simp [listPrefixEq, listPrefixEq_self_append n t]

theorem listOccurs_of_prefixEq (n hay : List Char) (h : listPrefixEq n hay = true) :
    listOccurs n hay = true := by
  cases hay with
  | nil => simpa [listOccurs] using h
  | cons c t => simp [listOccurs, h]

theorem listOccurs_append (pre n post : List Char) :
    listOccurs n (pre ++ (n ++ post)) = true := by
  induction pre with
  | nil => exact listOccurs_of_prefixEq _ _ (listPrefixEq_self_append n post)
  | cons c t ih => simp [listOccurs, ih]

/-- A string built around a middle segment contains that segment. -/
theorem strContains_decomp (pre mid post s : String) (h : s = pre ++ mid ++ post) :
    strContains s mid = true := by
  subst h
  simpa [strContains, data_append, List.append_assoc] using
    listOccurs_append pre.data mid.data post.data

/-- The code point of a Lean character is a unicode scalar value: below the
surrogate block or above it and below 0x110000. -/
theorem char_toNat_valid (c : Char) :
    c.toNat < 55296 ∨ (57343 < c.toNat ∧ c.toNat < 1114112) := by
  cases c.valid with
  | inl h => exact Or.inl (UInt32.toNat_lt_of_lt (by decide) h)
  | inr h =>
    exact Or.inr ⟨UInt32.lt_toNat_of_lt (by decide) h.1,
      UInt32.toNat_lt_of_lt (by decide) h.2⟩

theorem hexVal_hexChar (d : Nat) (h : d < 16) : hexVal (hexChar d) = some d := by
  interval_cases d <;> decide

theorem parseU4_hex4 (n : Nat) (h : n < 65536) (rest : List Char) :
    parseU4 (hex4 n ++ rest) = some (n, rest) := by
  have h3 : n / 4096 % 16 < 16 := Nat.mod_lt _ (by omega)
  have h2 : n / 256 % 16 < 16 := Nat.mod_lt _ (by omega)
  have h1 : n / 16 % 16 < 16 := Nat.mod_lt _ (by omega)
  have h0 : n % 16 < 16 := Nat.mod_lt _ (by omega)
  simp only [hex4, List.cons_append, List.nil_append, parseU4,
    hexVal_hexChar _ h3, hexVal_hexChar _ h2, hexVal_hexChar _ h1, hexVal_hexChar _ h0]
  congr 2
  omega

theorem escapeChar_length_pos (c : Char) : 0 < (escapeChar c).length := by
  simp only [escapeChar]
  repeat' split
  all_goals simp [uEsc, hex4]

theorem escList_length (cs : List Char) : cs.length ≤ (escList cs).length := by
  induction cs with
  | nil => simp [escList]
  | cons c t ih =>
    have := escapeChar_length_pos c
    simp only [escList, List.length_append, List.length_cons]
    omega

theorem parseStringBody_escaped (f : Nat) (e d : Char) (tail : List Char)
    (he : escDecode e = some d) (hu : e ≠ 'u') :
    parseStringBody (f + 1) ('\\' :: e :: tail) =
      (parseStringBody f tail).map (fun p => (d :: p.1, p.2)) := by
  simp [parseStringBody, hu, he]

theorem parseStringBody_uEsc (f : Nat) (n : Nat) (tail : List Char)
    (h1 : n < 65536) (h2 : ¬(55296 ≤ n ∧ n ≤ 57343)) :
    parseStringBody (f + 1) (uEsc n ++ tail) =
      (parseStringBody f tail).map (fun p => (Char.ofNat n :: p.1, p.2)) := by
  have ha : ¬(55296 ≤ n ∧ n ≤ 56319) := by omega
  have hb : ¬(56320 ≤ n ∧ n ≤ 57343) := by omega
  simp [uEsc, parseStringBody, parseU4_hex4 n h1 tail, ha, hb]

theorem parseStringBody_uEscPair (f : Nat) (v : Nat) (tail : List Char)
    (h1 : 65536 ≤ v) (h2 : v < 1114112) :
    parseStringBody (f + 1)
      (uEsc (55296 + (v - 65536) / 1024) ++ (uEsc (56320 + (v - 65536) % 1024) ++ tail)) =
      (parseStringBody f tail).map (fun p => (Char.ofNat v :: p.1, p.2)) := by
  have e1 : 55296 + (v - 65536) / 1024 < 65536 := by omega
  have e2 : 56320 + (v - 65536) % 1024 < 65536 := by omega
  have c1 : 55296 ≤ 55296 + (v - 65536) / 1024 ∧ 55296 + (v - 65536) / 1024 ≤ 56319 := by
    omega
  have c2 : 56320 ≤ 56320 + (v - 65536) % 1024 ∧ 56320 + (v - 65536) % 1024 ≤ 57343 := by
    omega
  rw [show (uEsc (55296 + (v - 65536) / 1024) ++ (uEsc (56320 + (v - 65536) % 1024) ++ tail)) =
      '\\' :: 'u' :: (hex4 (55296 + (v - 65536) / 1024) ++
        ('\\' :: 'u' :: (hex4 (56320 + (v - 65536) % 1024) ++ tail))) from by
    simp [uEsc]]
  rw [parseStringBody]
  rw [if_neg (by decide), if_pos rfl]
  simp only [parseU4_hex4 _ e1]
  rw [if_pos trivial, if_pos c1]
  simp only [parseU4_hex4 _ e2]
  rw [if_pos c2]
  rw [show 65536 + (55296 + (v - 65536) / 1024 - 55296) * 1024 +
      (56320 + (v - 65536) % 1024 - 56320) = v from by omega]

theorem parseStringBody_escList :
    ∀ (cs : List Char) (fuel : Nat) (rest : List Char), cs.length < fuel →
      parseStringBody fuel (escList cs ++ '"' :: rest) = some (cs, rest) := by
  intro cs
  induction cs with
  | nil =>
    intro fuel rest h
    obtain ⟨f, rfl⟩ : ∃ f, fuel = f + 1 := ⟨fuel - 1, by omega⟩
    simp [escList, parseStringBody]
  | cons c t ih =>
    intro fuel rest h
    obtain ⟨f, rfl⟩ : ∃ f, fuel = f + 1 := ⟨fuel - 1, by omega⟩
    have hf : t.length < f := by simp only [List.length_cons] at h; omega
    have hrec := ih f rest hf
    rw [show escList (c :: t) ++ '"' :: rest = escapeChar c ++ (escList t ++ '"' :: rest) from by
      simp [escList]]
    by_cases h1 : c = '"'
    · subst h1
      rw [show escapeChar '"' = ['\\', '"'] from rfl, List.cons_append, List.cons_append,
        List.nil_append, parseStringBody_escaped f '"' '"' _ rfl (by decide), hrec]
      rfl
    by_cases h2 : c = '\\'
    · subst h2
      rw [show escapeChar '\\' = ['\\', '\\'] from rfl, List.cons_append, List.cons_append,
        List.nil_append, parseStringBody_escaped f '\\' '\\' _ rfl (by decide), hrec]
      rfl
    by_cases h3 : c = '\n'
    · subst h3
      rw [show escapeChar '\n' = ['\\', 'n'] from rfl, List.cons_append, List.cons_append,
        List.nil_append, parseStringBody_escaped f 'n' '\n' _ rfl (by decide), hrec]
      rfl
    by_cases h4 : c = '\r'
    · subst h4
      rw [show escapeChar '\r' = ['\\', 'r'] from rfl, List.cons_append, List.cons_append,
        List.nil_append, parseStringBody_escaped f 'r' '\r' _ rfl (by decide), hrec]
      rfl
    by_cases h5 : c = '\t'
    · subst h5
      rw [show escapeChar '\t' = ['\\', 't'] from rfl, List.cons_append, List.cons_append,
        List.nil_append, parseStringBody_escaped f 't' '\t' _ rfl (by decide), hrec]
      rfl
    by_cases h6 : c.toNat = 8
    · have hc : c = Char.ofNat 8 := by rw [← h6, Char.ofNat_toNat]
      subst hc
      rw [show escapeChar (Char.ofNat 8) = ['\\', 'b'] from rfl, List.cons_append,
        List.cons_append, List.nil_append,
        parseStringBody_escaped f 'b' (Char.ofNat 8) _ rfl (by decide), hrec]
      rfl
    by_cases h7 : c.toNat = 12
    · have hc : c = Char.ofNat 12 := by rw [← h7, Char.ofNat_toNat]
      subst hc
      rw [show escapeChar (Char.ofNat 12) = ['\\', 'f'] from rfl, List.cons_append,
        List.cons_append, List.nil_append,
        parseStringBody_escaped f 'f' (Char.ofNat 12) _ rfl (by decide), hrec]
      rfl
    by_cases h8 : c.toNat < 32
    · rw [show escapeChar c = uEsc c.toNat from by
        simp [escapeChar, h1, h2, h3, h4, h5, h6, h7, h8]]
      rw [parseStringBody_uEsc f c.toNat _ (by omega) (by omega), hrec, Char.ofNat_toNat]
      rfl
    by_cases h9 : c.toNat < 127
    · rw [show escapeChar c = [c] from by
        simp [escapeChar, h1, h2, h3, h4, h5, h6, h7, h8, h9]]
      rw [List.cons_append, List.nil_append]
      simp [parseStringBody, h1, h2, h8, hrec]
    have hval := char_toNat_valid c
    by_cases h10 : c.toNat < 65536
    · rw [show escapeChar c = uEsc c.toNat from by
        simp [escapeChar, h1, h2, h3, h4, h5, h6, h7, h8, h9, h10]]
      rw [parseStringBody_uEsc f c.toNat _ h10 (by omega), hrec, Char.ofNat_toNat]
      rfl
    · rw [show escapeChar c = uEsc (55296 + (c.toNat - 65536) / 1024) ++
          uEsc (56320 + (c.toNat - 65536) % 1024) from by
        simp [escapeChar, h1, h2, h3, h4, h5, h6, h7, h8, h9, h10]]
      rw [List.append_assoc,
        parseStringBody_uEscPair f c.toNat _ (by omega) (by omega), hrec, Char.ofNat_toNat]
      rfl

theorem skipWs_not_ws (c : Char) (cs : List Char) (h : isJsonWs c = false) :
    skipWs (c :: cs) = c :: cs := by
  simp [skipWs, h]

theorem skipWs_space (cs : List Char) : skipWs (' ' :: cs) = skipWs cs := by
  simp [skipWs, isJsonWs]

/-- Parsing a string literal body at the fuel the parser allocates (one more
than the remaining input) recovers the escaped characters exactly. -/
theorem parseStringBody_footer (cs tail : List Char) :
    parseStringBody ((escList cs ++ '"' :: tail).length + 1) (escList cs ++ '"' :: tail) =
      some (cs, tail) := by
  refine parseStringBody_escList cs _ tail ?_
  have h1 := escList_length cs
  simp only [List.length_append, List.length_cons]
  omega

/-- Parsing a value at a space followed by a dumped string literal. -/
theorem parseValue_strLit (f : Nat) (s : String) (tail : List Char) :
    parseValue (f + 1) (' ' :: '"' :: (escList s.data ++ '"' :: tail)) =
      some (Json.str s, tail) := by
  rw [parseValue, skipWs_space, skipWs_not_ws _ _ (by decide)]
  simp only [if_pos rfl, List.length_cons, List.length_append]
  rw [parseStringBody_escList s.data _ tail (by have := escList_length s.data; omega)]
  simp [mk_data]

theorem skipWs_colon (cs : List Char) : skipWs (':' :: cs) = ':' :: cs := by
  simp [skipWs, isJsonWs]

theorem skipWs_comma (cs : List Char) : skipWs (',' :: cs) = ',' :: cs := by
  simp [skipWs, isJsonWs]

theorem skipWs_rbrace (cs : List Char) : skipWs (rbrace :: cs) = rbrace :: cs := by
  simp [skipWs, isJsonWs, rbrace]

theorem parseMembers_space (f : Nat) (X : List Char) :
    parseMembers (f + 1) (' ' :: X) = parseMembers (f + 1) X := by
  rw [parseMembers, parseMembers, skipWs_space]

theorem parseMembers_dumps :
    ∀ (ms : List (String × String)) (f : Nat), ms ≠ [] → ms.length ≤ f →
      parseMembers (f + 1) (dumpsObjAux ms ++ [rbrace]) =
        some (ms.map (fun p => (p.1, Json.str p.2)), []) := by
  intro ms
  induction ms with
  | nil => intro f hne _; exact absurd rfl hne
  | cons kv rest ih =>
    intro f _ hlen
    obtain ⟨k, v⟩ := kv
    obtain ⟨g, rfl⟩ : ∃ g, f = g + 1 :=
      ⟨f - 1, by simp only [List.length_cons] at hlen; omega⟩
    cases rest with
    | nil =>
      rw [show dumpsObjAux [(k, v)] ++ [rbrace] =
          '"' :: (escList k.data ++ '"' ::
            (':' :: ' ' :: '"' :: (escList v.data ++ '"' :: [rbrace]))) from by
        simp [dumpsObjAux, dumpStr]]
      rw [parseMembers, skipWs_not_ws _ _ (by decide)]
      simp only [if_pos rfl, List.length_cons, List.length_append]
      rw [parseStringBody_escList k.data _ _ (by have := escList_length k.data; omega)]
      simp [skipWs_colon, parseValue_strLit, skipWs_rbrace, mk_data,
        (by decide : ¬rbrace = ',')]
    | cons kv2 rest2 =>
      rw [show dumpsObjAux ((k, v) :: kv2 :: rest2) ++ [rbrace] =
          '"' :: (escList k.data ++ '"' ::
            (':' :: ' ' :: '"' :: (escList v.data ++ '"' ::
              (',' :: ' ' :: (dumpsObjAux (kv2 :: rest2) ++ [rbrace]))))) from by
        simp [dumpsObjAux, dumpStr]]
      rw [parseMembers, skipWs_not_ws _ _ (by decide)]
      simp only [if_pos rfl, List.length_cons, List.length_append]
      rw [parseStringBody_escList k.data _ _ (by have := escList_length k.data; omega)]
      simp [skipWs_colon, parseValue_strLit, skipWs_comma, parseMembers_space, mk_data,
        ih g (by simp) (by simp only [List.length_cons] at hlen ⊢; omega)]

theorem skipWs_nil : skipWs [] = [] := rfl

/-- A dumped object of string fields parses back to exactly the object with
those fields, in order, as JSON string values. -/
theorem parseJsonTop_dumpsObj (ms : List (String × String)) (hne : ms ≠ [])
    (hlen : ms.length ≤ 8) :
    parseJsonTop (dumpsObj ms) =
      some (Json.obj (ms.map (fun p => (p.1, Json.str p.2)))) := by
  obtain ⟨⟨k, v⟩, rest, rfl⟩ : ∃ kv tail, ms = kv :: tail := by
    cases ms with
    | nil => exact absurd rfl hne
    | cons kv tail => exact ⟨kv, tail, rfl⟩
  have hpm : parseMembers 9 (dumpsObjAux ((k, v) :: rest) ++ [rbrace]) =
      some (((k, v) :: rest).map (fun p => (p.1, Json.str p.2)), []) :=
    parseMembers_dumps ((k, v) :: rest) 8 (by simp) hlen
  obtain ⟨Y, hY⟩ : ∃ Y, dumpsObjAux ((k, v) :: rest) ++ [rbrace] = '"' :: Y := by
    cases rest with
    | nil =>
      refine ⟨escList k.data ++ '"' :: ':' :: ' ' :: '"' ::
        (escList v.data ++ ['"', rbrace]), ?_⟩
      simp [dumpsObjAux, dumpStr]
    | cons a b =>
      refine ⟨escList k.data ++ '"' :: ':' :: ' ' :: '"' ::
        (escList v.data ++ '"' :: ',' :: ' ' :: (dumpsObjAux (a :: b) ++ [rbrace])), ?_⟩
      simp [dumpsObjAux, dumpStr]
  rw [hY] at hpm
  rw [parseJsonTop, dumpsObj, data_mk, List.cons_append]
  rw [show (10 : Nat) = 9 + 1 from rfl, parseValue]
  rw [skipWs_not_ws _ _ (by decide)]
  rw [hY]
  simp [skipWs_not_ws _ _ (by decide : isJsonWs '"' = false),
    (by decide : ¬lbrace = '"'), (by decide : ¬('"' : Char) = rbrace), hpm, skipWs_nil]

/-- C2: in every environment (psutil present, absent or erroring; meminfo
present, absent, malformed or lacking keys, in particular `MemAvailable`
missing), `get_memory_usage` returns a record whose three fields are all
numeric or all the `N/A` sentinel together, never a partial record. -/
theorem C2_memory_complete_or_sentinel (pm : PsutilMem) (mi : Option (List String)) :
    (∃ u t p : ℚ, get_memory_usage pm mi =
      ⟨PyVal.num u, PyVal.num t, PyVal.num p⟩) ∨
    get_memory_usage pm mi = memNA := by
  have fallback :
      ∀ mi2 : Option (List String),
        (∃ u t p : ℚ,
          get_memory_usage PsutilMem.absent mi2 =
            ⟨PyVal.num u, PyVal.num t, PyVal.num p⟩) ∨
        get_memory_usage PsutilMem.absent mi2 = memNA := by
    intro mi2
    cases mi2 with
    | none => exact Or.inr rfl
    | some lines =>
      rcases hp : parseMeminfoLines lines with _ | tbl
      · exact Or.inr (by simp [get_memory_usage, hp])
      · rcases ht : lookupLast tbl "MemTotal" with _ | total_kb
        · exact Or.inr (by simp [get_memory_usage, hp, ht])
        · rcases ha : lookupLast tbl "MemAvailable" with _ | available_kb
          · exact Or.inr (by simp [get_memory_usage, hp, ht, ha])
          · by_cases h : total_kb = 0
            · exact Or.inr (by simp [get_memory_usage, hp, ht, ha, h])
            · refine Or.inl ⟨round1 (((total_kb - available_kb : ℤ) : ℚ) / 1048576),
                round1 ((total_kb : ℚ) / 1048576),
                round1 (((total_kb - available_kb : ℤ) : ℚ) / (total_kb : ℚ) * 100), ?_⟩
              simp [get_memory_usage, hp, ht, ha, h]
  cases pm with
  | ok used total percent => exact Or.inl ⟨_, _, _, rfl⟩
  | absent => exact fallback mi
  | errs => exact fallback mi

/-- C6: the meminfo fallback on `MemTotal: 16000000 kB`, `MemAvailable:
8000000 kB` yields exactly used 7.6 GB, total 15.3 GB, 50.0 percent
(used = total minus available KiB over 1024 squared, each rounded to one
decimal). -/
theorem C6_meminfo_numeric_example :
    get_memory_usage PsutilMem.absent
      (some ["MemTotal: 16000000 kB", "MemAvailable: 8000000 kB"]) =
      ⟨PyVal.num (76 / 10), PyVal.num (153 / 10), PyVal.num 50⟩ := by
  decide

/-- C7: `get_cpu_load` returns the rounded overall figure with the complete
per-core list (one rounded entry per sampled core), or exactly the
null-and-empty record when psutil is absent or raises; it never returns a
partial or truncated list. -/
theorem C7_load_complete_or_empty (pc : PsutilCpu) :
    (∃ pcs ov, pc = PsutilCpu.ok pcs ov ∧
      get_cpu_load pc = ⟨some (round1 ov), pcs.map round1⟩ ∧
      (get_cpu_load pc).per_core.length = pcs.length) ∨
    (get_cpu_load pc = ⟨none, []⟩ ∧ (pc = PsutilCpu.absent ∨ pc = PsutilCpu.errs)) := by
  cases pc with
  | absent => exact Or.inr ⟨rfl, Or.inl rfl⟩
  | errs => exact Or.inr ⟨rfl, Or.inr rfl⟩
  | ok pcs ov => exact Or.inl ⟨pcs, ov, rfl, rfl, by simp [get_cpu_load]⟩

/-- C9: the formatter on temperature 45.0, overall load 12.3, any per-core
list and memory 7.6/15.3/50.0 puts exactly `CPU: 45.0°C (12.3%) | MEM:
8GB/15GB (50.0%)` in the `text` field, the GB figures rounded to whole
numbers. -/
theorem C9_text_field_example (ts : String) (pcs : List ℚ) :
    (waybarFields ts (PyVal.num 45)
        ⟨PyVal.num (76 / 10), PyVal.num (153 / 10), PyVal.num 50⟩
        ⟨some (123 / 10), pcs⟩).head? =
      some ("text", "CPU: 45.0°C (12.3%) | MEM: 8GB/15GB (50.0%)") := by
  rfl

/-- C1: for every environment — every combination of available, absent and
erroring sources, and the top-level-failure path — the single stdout line is
valid JSON parsing into exactly the four-field record with the keys `text`,
`tooltip`, `class`, `alt`, all of whose values are strings. -/
theorem C1_output_line_valid_json (env : Env) :
    ∃ t tp cl al : String,
      parseJsonTop (mainRun env).1 =
        some (Json.obj [("text", Json.str t), ("tooltip", Json.str tp),
          ("class", Json.str cl), ("alt", Json.str al)]) := by
  cases henv : env.unhandled with
  | some e =>
    refine ⟨"CPU: N/A | MEM: N/A", "Error: " ++ e, "hwinfo-error", "hwinfo-error", ?_⟩
    rw [show (mainRun env).1 = dumpsObj (errorRecord e) from by simp [mainRun, henv]]
    rw [errorRecord, parseJsonTop_dumpsObj _ (by simp) (by simp)]
    simp
  | none =>
    refine ⟨textOf (get_cpu_temperature env.pt env.zones)
        (get_memory_usage env.pm env.meminfo) (get_cpu_load env.pc),
      tooltipOf env.timestamp (get_cpu_temperature env.pt env.zones)
        (get_memory_usage env.pm env.meminfo) (get_cpu_load env.pc),
      "hwinfo", "hwinfo", ?_⟩
    rw [show (mainRun env).1 = dumpsObj (waybarFields env.timestamp
        (get_cpu_temperature env.pt env.zones) (get_memory_usage env.pm env.meminfo)
        (get_cpu_load env.pc)) from by simp [mainRun, henv, format_waybar_output]]
    rw [waybarFields, parseJsonTop_dumpsObj _ (by simp) (by simp)]
    simp

/-- C8: when an unhandled error with message `e` escapes the pipeline, `main`
still writes a well-formed JSON record with text `CPU: N/A | MEM: N/A`, class
and alt `hwinfo-error` and a tooltip containing the error message, and exits
1; without such an error it exits 0 with the normal formatted record. -/
theorem C8_error_and_success_paths (env : Env) :
    (∀ e, env.unhandled = some e →
      (mainRun env).2 = 1 ∧
      parseJsonTop (mainRun env).1 =
        some (Json.obj [("text", Json.str "CPU: N/A | MEM: N/A"),
          ("tooltip", Json.str ("Error: " ++ e)),
          ("class", Json.str "hwinfo-error"), ("alt", Json.str "hwinfo-error")]) ∧
      strContains ("Error: " ++ e) e = true) ∧
    (env.unhandled = none →
      (mainRun env).2 = 0 ∧
      (mainRun env).1 = format_waybar_output env.timestamp
        (get_cpu_temperature env.pt env.zones)
        (get_memory_usage env.pm env.meminfo) (get_cpu_load env.pc)) := by
  constructor
  · intro e he
    refine ⟨by simp [mainRun, he], ?_, ?_⟩
    · rw [show (mainRun env).1 = dumpsObj (errorRecord e) from by simp [mainRun, he]]
      rw [errorRecord, parseJsonTop_dumpsObj _ (by simp) (by simp)]
      simp
    · exact strContains_decomp "Error: " e "" _ (by simp)
  · intro he
    exact ⟨by simp [mainRun, he], by simp [mainRun, he]⟩

/-- Witness for C8 at a concrete erroring environment. -/
theorem C8_error_and_success_paths_witness :
    (mainRun ⟨PsutilTemps.absent, none, PsutilMem.absent, none, PsutilCpu.absent,
        "10:00:00", some "boom"⟩).2 = 1 ∧
    parseJsonTop (mainRun ⟨PsutilTemps.absent, none, PsutilMem.absent, none,
        PsutilCpu.absent, "10:00:00", some "boom"⟩).1 =
      some (Json.obj [("text", Json.str "CPU: N/A | MEM: N/A"),
        ("tooltip", Json.str ("Error: " ++ "boom")),
        ("class", Json.str "hwinfo-error"), ("alt", Json.str "hwinfo-error")]) ∧
    strContains ("Error: " ++ "boom") "boom" = true :=
  (C8_error_and_success_paths ⟨PsutilTemps.absent, none, PsutilMem.absent, none,
    PsutilCpu.absent, "10:00:00", some "boom"⟩).1 "boom" rfl

/-- A zone whose type string matches neither the preferred substrings nor
`acpi` (or whose read fails and so reaches no bucket either). -/
def zoneUnrecognized (z : ZoneRead) : Bool :=
  match z with
  | .err => true
  | .ok typeRaw _ =>
    let st := pyLower (pyStrip typeRaw)
    !(strContains st "coretemp" || strContains st "k10temp" ||
      strContains st "x86_pkg_temp" || strContains st "acpi")

theorem bucketZones_unrecognized (zs : List ZoneRead)
    (h : ∀ z ∈ zs, zoneUnrecognized z = true) : bucketZones zs = ([], []) := by
  induction zs with
  | nil => rfl
  | cons z t ih =>
    have hz := h z (by simp)
    have ht := ih (fun x hx => h x (by simp [hx]))
    cases z with
    | err => simp [bucketZones, zoneReading, ht]
    | ok a b =>
      obtain ⟨⟨⟨hc1, hc2⟩, hc3⟩, hc4⟩ :
          ((strContains (pyLower (pyStrip a)) "coretemp" = false ∧
            strContains (pyLower (pyStrip a)) "k10temp" = false) ∧
            strContains (pyLower (pyStrip a)) "x86_pkg_temp" = false) ∧
          strContains (pyLower (pyStrip a)) "acpi" = false := by
        simpa [zoneUnrecognized] using hz
      cases hpi : pyInt b with
      | none => simp [bucketZones, zoneReading, hpi, ht]
      | some milli => simp [bucketZones, zoneReading, hpi, hc1, hc2, hc3, hc4, ht]

/-- C10: in the thermal-zone fallback, zones whose type contains none of
`coretemp`, `k10temp`, `x86_pkg_temp` nor `acpi` feed neither bucket, so a
filesystem where every zone has such a type (for example `cpu-thermal`)
yields the `N/A` sentinel even when every reading is in range. -/
theorem C10_unmatched_zone_types_yield_sentinel (zs : List ZoneRead)
    (h : ∀ z ∈ zs, zoneUnrecognized z = true) :
    get_cpu_temperature PsutilTemps.absent (some zs) = PyVal.str "N/A" := by
  have hb := bucketZones_unrecognized zs h
  cases zs with
  | nil => rfl
  | cons z t => simp [get_cpu_temperature, strategyA, strategyB, hb]

/-- Witness for C10: one `cpu-thermal` zone with a valid 45.0°C reading
still produces the sentinel. -/
theorem C10_unmatched_zone_types_witness :
    get_cpu_temperature PsutilTemps.absent
      (some [ZoneRead.ok "cpu-thermal" "45000"]) = PyVal.str "N/A" ∧
    zoneReading (ZoneRead.ok "cpu-thermal" "45000") = some ("cpu-thermal", 45) :=
  ⟨C10_unmatched_zone_types_yield_sentinel [ZoneRead.ok "cpu-thermal" "45000"] (by decide),
   by decide⟩

/-- Is one sensor-group entry an in-range reading. -/
def entryValid (e : Option ℚ) : Bool :=
  match e with
  | some v => decide (0 < v ∧ v < 150)
  | none => false

/-- Does one thermal zone carry an in-range reading. -/
def zoneValid (z : ZoneRead) : Bool :=
  match zoneReading z with
  | none => false
  | some p => decide (0 < p.2 ∧ p.2 < 150)

/-- All Strategy A candidate readings are invalid: every entry of every
sensor group is `None` or out of the open interval (0, 150). -/
def noValidSensorA : PsutilTemps → Prop
  | .ok temps => ∀ p ∈ temps, ∀ e ∈ p.2, entryValid e = false
  | _ => True

/-- All Strategy B candidate readings are invalid: every thermal zone fails
to read or its Celsius value is out of the open interval (0, 150). -/
def noValidSensorB : Option (List ZoneRead) → Prop
  | some zs => ∀ z ∈ zs, zoneValid z = false
  | none => True

theorem validReadings_eq_nil (entries : List (Option ℚ))
    (h : ∀ e ∈ entries, entryValid e = false) : validReadings entries = [] := by
  induction entries with
  | nil => rfl
  | cons e t ih =>
    have he := h e (by simp)
    have ht := ih (fun x hx => h x (by simp [hx]))
    cases e with
    | none => simpa [validReadings] using ht
    | some v =>
      have hv : ¬(0 < v ∧ v < 150) := by simpa [entryValid] using he
      simp only [validReadings, List.filterMap_cons] at ht ⊢
      simp [hv, ht]

theorem groupMean1_eq_none (entries : List (Option ℚ))
    (h : ∀ e ∈ entries, entryValid e = false) : groupMean1 entries = none := by
  simp [groupMean1, validReadings_eq_nil entries h]

theorem findPriority_eq_none (ks : List String) (temps : List (String × List (Option ℚ)))
    (h : ∀ p ∈ temps, ∀ e ∈ p.2, entryValid e = false) :
    findPriority ks temps = none := by
  induction ks with
  | nil => rfl
  | cons k t ih =>
    cases hlk : lookupDict temps k with
    | none => simp [findPriority, hlk, ih]
    | some entries =>
      obtain ⟨p, hp, hpe⟩ : ∃ p, List.find? (fun p => p.1 = k) temps = some p ∧ p.2 = entries := by
        simpa [lookupDict, Option.map_eq_some'] using hlk
      have hmem : p ∈ temps := List.mem_of_find?_eq_some hp
      have : groupMean1 entries = none := by
        subst hpe
        exact groupMean1_eq_none _ (h p hmem)
      simp [findPriority, hlk, this, ih]

theorem findCpuName_eq_none (temps : List (String × List (Option ℚ)))
    (h : ∀ p ∈ temps, ∀ e ∈ p.2, entryValid e = false) :
    findCpuName temps = none := by
  induction temps with
  | nil => rfl
  | cons p t ih =>
    obtain ⟨name, entries⟩ := p
    have hg : groupMean1 entries = none :=
      groupMean1_eq_none _ (h (name, entries) (by simp))
    have ht := ih (fun x hx => h x (by simp [hx]))
    cases hsc : (strContains (pyLower name) "cpu" || strContains (pyLower name) "core") with
    | true => simp [findCpuName, hsc, hg, ht]
    | false => simp [findCpuName, hsc, ht]

theorem bucketZones_no_valid (zs : List ZoneRead)
    (h : ∀ z ∈ zs, zoneValid z = false) : bucketZones zs = ([], []) := by
  induction zs with
  | nil => rfl
  | cons z t ih =>
    have hz := h z (by simp)
    have ht := ih (fun x hx => h x (by simp [hx]))
    cases hzr : zoneReading z with
    | none => simp [bucketZones, hzr, ht]
    | some p =>
      have hv : ¬(0 < p.2 ∧ p.2 < 150) := by simpa [zoneValid, hzr] using hz
      simp [bucketZones, hzr, hv, ht]

/-- C5: whenever every candidate reading of both strategies — every sensor
group entry and every thermal-zone value — is outside the open interval
(0, 150) degrees, `get_cpu_temperature` returns the `N/A` sentinel, never a
number. -/
theorem C5_all_invalid_readings_yield_sentinel (pt : PsutilTemps)
    (zones : Option (List ZoneRead)) (hA : noValidSensorA pt)
    (hB : noValidSensorB zones) :
    get_cpu_temperature pt zones = PyVal.str "N/A" := by
  have hsa : strategyA pt = none := by
    cases pt with
    | absent => rfl
    | errs => rfl
    | ok temps =>
      by_cases h : temps = []
      · simp [strategyA, h]
      · simp only [noValidSensorA] at hA
        simp [strategyA, h, findPriority_eq_none _ _ hA, findCpuName_eq_none _ hA]
  have hsb : strategyB zones = PyVal.str "N/A" := by
    cases zones with
    | none => rfl
    | some zs =>
      simp only [noValidSensorB] at hB
      have hb := bucketZones_no_valid zs hB
      cases zs with
      | nil => rfl
      | cons z t => simp [strategyB, hb]
  simp [get_cpu_temperature, hsa, hsb]

/-- Witness for C5: a coretemp group reading 200°C plus a `None` entry, an
acpitz zone reading 200°C and an unreadable zone all yield the sentinel. -/
theorem C5_all_invalid_readings_witness :
    get_cpu_temperature (PsutilTemps.ok [("coretemp", [some 200, none])])
      (some [ZoneRead.ok "acpitz" "200000", ZoneRead.err]) = PyVal.str "N/A" :=
  C5_all_invalid_readings_yield_sentinel _ _
    (by simp only [noValidSensorA]; decide) (by simp only [noValidSensorB]; decide)

/-- C3 counterexample: with `coretemp` present but all-invalid (200°C) and a
`cpu_thermal` group holding 50°C, the claim predicts the result is set by the
priority group alone — its mean is unavailable, so fallthrough to Strategy B,
which here gives the sentinel — yet the code returns 50.0 from the merely
cpu-named group. -/
theorem C3_counterexample_scan_despite_priority :
    lookupDict [("coretemp", [some 200]), ("cpu_thermal", [some 50])] "coretemp" =
      some [some 200] ∧
    groupMean1 [some 200] = none ∧
    strategyB (some []) = PyVal.str "N/A" ∧
    get_cpu_temperature
      (PsutilTemps.ok [("coretemp", [some 200]), ("cpu_thermal", [some 50])])
      (some []) = PyVal.num 50 := by
  refine ⟨by decide, by decide, rfl, by decide⟩

/-- C3 amended: the Strategy A result is the rounded mean of the first
priority group having an in-range reading whenever one exists (the cpu/core
scan and Strategy B are then never consulted); only when no priority group
yields a valid reading — even if priority names are present — does the
cpu/core scan run, and Strategy B is consulted only when the scan also
yields nothing. -/
theorem C3_amended_priority_then_scan (temps : List (String × List (Option ℚ)))
    (zones : Option (List ZoneRead)) :
    (∀ v, findPriority cpu_keys temps = some v →
      get_cpu_temperature (PsutilTemps.ok temps) zones = PyVal.num v) ∧
    (temps ≠ [] → findPriority cpu_keys temps = none →
      get_cpu_temperature (PsutilTemps.ok temps) zones =
        match findCpuName temps with
        | some v => PyVal.num v
        | none => strategyB zones) := by
  constructor
  · intro v hv
    have hne : temps ≠ [] := by
      intro h
      subst h
      exact Option.noConfusion ((rfl : findPriority cpu_keys [] = none) ▸ hv)
    simp [get_cpu_temperature, strategyA, hne, hv]
  · intro hne hp
    cases hc : findCpuName temps with
    | some v => simp [get_cpu_temperature, strategyA, hne, hp, hc]
    | none => simp [get_cpu_temperature, strategyA, hne, hp, hc]

/-- Witness for C3 amended: `coretemp` holding 45.0 and 47.0 beats an
`acpitz` group, the result being their mean 46.0 whatever the zones hold. -/
theorem C3_amended_priority_then_scan_witness :
    get_cpu_temperature
      (PsutilTemps.ok [("coretemp", [some 45, some 47]), ("acpitz", [some 50])])
      none = PyVal.num 46 :=
  (C3_amended_priority_then_scan
    [("coretemp", [some 45, some 47]), ("acpitz", [some 50])] none).1 46 (by decide)

/-- C4 counterexample: a memory record with numeric used and total but a
non-numeric percent does not make the tooltip carry `Memory: N/A` — the
formatter checks only two of the three fields, so the claim's branch
condition is wrong. -/
theorem C4_counterexample_two_field_check :
    (PyVal.str "N/A").isNum = false ∧
    strContains
      (tooltipOf "12:00:00" (PyVal.str "N/A")
        ⟨PyVal.num (76 / 10), PyVal.num (153 / 10), PyVal.str "N/A"⟩ ⟨none, []⟩)
      "Memory: N/A" = false := by
  refine ⟨rfl, by decide⟩

/-- C4 amended: the tooltip carries the line `Memory: N/A` exactly when
`used_gb` or `total_gb` is non-numeric; when both are numeric the formatted
memory line appears instead, with `percent` rendered as-is inside it whether
or not it is numeric. -/
theorem C4_amended_tooltip_memory_line (ts : String) (cpu_temp : PyVal)
    (mem : MemInfo) (load : CpuLoad) :
    (mem.used_gb.isNum = false ∨ mem.total_gb.isNum = false →
      strContains (tooltipOf ts cpu_temp mem load) "Memory: N/A" = true) ∧
    (∀ u t, mem.used_gb = PyVal.num u → mem.total_gb = PyVal.num t →
      strContains (tooltipOf ts cpu_temp mem load)
        ("Memory: " ++ fmt2f (u * 1024) ++ "MB / " ++ fmt2f (t * 1024) ++ "MB (" ++
          pyValRender mem.percent ++ "%)") = true) := by
  constructor
  · intro h
    have hml : memLineOf mem = "Memory: N/A\n" := by
      obtain ⟨mu, mt, mp⟩ := mem
      cases mu <;> cases mt <;> simp_all [memLineOf, PyVal.isNum]
    refine strContains_decomp
      ("Hardware Info\n" ++ "CPU Temp: " ++ cpuTextOf cpu_temp load ++ "\n" ++
        (if load.per_core = [] then "" else "CPU Load:\n" ++ coreLines load.per_core))
      "Memory: N/A"
      ("\n" ++ ("Updated: " ++ ts)) _ ?_
    rw [tooltipOf, hml]
    rw [show ("Memory: N/A\n" : String) = "Memory: N/A" ++ "\n" from rfl]
    simp only [String.append_assoc]
  · intro u t hu ht
    have hml : memLineOf mem =
        "Memory: " ++ fmt2f (u * 1024) ++ "MB / " ++ fmt2f (t * 1024) ++ "MB (" ++
          pyValRender mem.percent ++ "%)" ++ "\n" := by
      obtain ⟨mu, mt, mp⟩ := mem
      simp only at hu ht
      subst hu ht
      simp [memLineOf, String.append_assoc]
    refine strContains_decomp
      ("Hardware Info\n" ++ "CPU Temp: " ++ cpuTextOf cpu_temp load ++ "\n" ++
        (if load.per_core = [] then "" else "CPU Load:\n" ++ coreLines load.per_core))
      _ ("\n" ++ ("Updated: " ++ ts)) _ ?_
    rw [tooltipOf, hml]
    simp only [String.append_assoc]

/-- Witness for C4 amended at the all-sentinel record. -/
theorem C4_amended_tooltip_memory_line_witness :
    strContains (tooltipOf "12:00:00" (PyVal.str "N/A") memNA ⟨none, []⟩)
      "Memory: N/A" = true :=
  (C4_amended_tooltip_memory_line "12:00:00" (PyVal.str "N/A") memNA
    ⟨none, []⟩).1 (Or.inl rfl)
